import Mathlib

/-!
Shallow embedding of the intent + slot classification engine of the
product-mcp-server repository (directory `api/chat_api`), covering:

* the rule-based joint classifier (`ml_classifier/joint_classifier.py`,
  `ml_classifier/patterns.py`, `ml_classifier/extractors.py`,
  `ml_classifier/processors.py`),
* the corpus-trained classifier (`classifier/training/ml_classifier.py`),
* the dynamic argument extractor (`classifier/argument_extractor.py`),
* the result assembly step (`classifier/csv_classifier.py`), and
* the CSV corpus loader (`classifier/training/csv_loader.py`).

Texts are modelled as lists of characters.  Python regular expressions used
by the source are embedded as an explicit abstract syntax tree together with
a backtracking matcher whose result order mirrors the priority order of
Python `re.search` (leftmost starting position first, then alternation order,
greedy quantifiers longest-first, lazy quantifiers shortest-first).
-/

namespace ProductMcp

/-! ## Python string primitives -/

abbrev Chars := List Char

/-- The character list of a string literal. -/
def str (s : String) : Chars := s.data

/-- Python `str.lower()` (ASCII case mapping, which covers every input the
repository's patterns and tests use). -/
def pyLower (s : Chars) : Chars := s.map Char.toLower

/-- Python regex class `\s` and `str.strip()` whitespace. -/
def wsB (c : Char) : Bool :=
  c = ' ' || c = '\t' || c = '\n' || c = '\r' || c = '\x0b' || c = '\x0c'

/-- Python regex class `\w` (ASCII). -/
def isWordCh (c : Char) : Bool := c.isAlphanum || c = '_'

/-- Python `str.strip()`. -/
def pyStrip (s : Chars) : Chars :=
  ((s.dropWhile wsB).reverse.dropWhile wsB).reverse

/-- Substring test: Python `needle in hay`. -/
def containsSub (needle hay : Chars) : Bool :=
  match hay with
  | [] => needle.isEmpty
  | _ :: t => needle.isPrefixOf hay || containsSub needle t

theorem dropWhile_length_le (p : Char → Bool) :
    ∀ l : Chars, (l.dropWhile p).length ≤ l.length := by
  intro l
  induction l with
  | nil => simp [List.dropWhile]
  | cons c t ih =>
    simp only [List.dropWhile]
    cases p c <;> simp <;> omega

/-- Python `str.split()` with no argument: split on whitespace runs,
dropping empty pieces. -/
def splitWs (s : Chars) : List Chars :=
  match s with
  | [] => []
  | c :: t =>
    if wsB c then splitWs t
    else
      let w := (c :: t).takeWhile (fun d => !wsB d)
      w :: splitWs (t.dropWhile (fun d => !wsB d))
  termination_by s.length
  decreasing_by
    · simp
    · have := dropWhile_length_le (fun d => !wsB d) t
      simp only [List.length_cons]
      omega

/-- Python `str.title()`: a cased character is upper-cased when the previous
character is not alphabetic, lower-cased otherwise. -/
def pyTitleGo : Bool → Chars → Chars
  | _, [] => []
  | prevAlpha, c :: t =>
    (if c.isAlpha then (if prevAlpha then c.toLower else c.toUpper) else c)
      :: pyTitleGo c.isAlpha t

def pyTitle (s : Chars) : Chars := pyTitleGo false s

/-- Python `int(s)` on a digit string (the source only feeds it captures of
`\d+`; any other shape yields `none`, mirroring the `ValueError` branch). -/
def pyInt (s : Chars) : Option Int :=
  if s ≠ [] ∧ s.all Char.isDigit then
    some (s.foldl (fun acc c => acc * 10 + (c.toNat - '0'.toNat)) (0 : Int))
  else none

/-- Python `float(s)` on strings of shape `digits` or `digits.digits`
(the only shapes the source's regex captures can produce); the numeric value
is modelled exactly as a rational. -/
def pyFloat (s : Chars) : Option ℚ :=
  let intPart := s.takeWhile Char.isDigit
  let rest := s.dropWhile Char.isDigit
  if intPart = [] then none
  else
    let iv : ℚ := intPart.foldl (fun acc c => acc * 10 + ((c.toNat - '0'.toNat : ℕ) : ℚ)) 0
    match rest with
    | [] => some iv
    | '.' :: frac =>
      if frac ≠ [] ∧ frac.all Char.isDigit then
        some (iv + (frac.foldl (fun acc c => acc * 10 + ((c.toNat - '0'.toNat : ℕ) : ℚ)) 0) /
          ((10 : ℚ) ^ frac.length))
      else none
    | _ => none

/-- Slice `s[a:b]` of a character list. -/
def slice (s : Chars) (a b : Nat) : Chars := (s.take b).drop a

/-! ## Embedded regular expressions

Only the constructs appearing in the repository's pattern tables are needed:
literals, single-character classes, sequencing, alternation, greedy `?`,
greedy `*`/`+` and lazy `+?` over character classes, one capture group,
the anchors `^` and `$`, and the word boundary `\b`.  Counted repetition
`\d{2}` is expanded into two class nodes. -/

inductive Re where
  | eps : Re
  | ch (p : Char → Bool) : Re
  | lit (cs : Chars) : Re
  | seq (a b : Re) : Re
  | alt (a b : Re) : Re
  | opt (a : Re) : Re
  | starC (p : Char → Bool) : Re
  | plusC (p : Char → Bool) : Re
  | lazyPlusC (p : Char → Bool) : Re
  | group (a : Re) : Re
  | bos : Re
  | eos : Re
  | bnd : Re

/-- Length of the maximal run of class characters starting at `pos`. -/
def runLen (p : Char → Bool) (s : Chars) (pos : Nat) : Nat :=
  ((s.drop pos).takeWhile p).length

/-- All ways a regex can match starting at `pos`, as `(end, group-1 span)`
pairs in Python backtracking priority order. -/
def Re.mat : Re → Chars → Nat → List (Nat × Option (Nat × Nat))
  | .eps, _, pos => [(pos, none)]
  | .ch p, s, pos =>
    match s.get? pos with
    | some c => if p c then [(pos + 1, none)] else []
    | none => []
  | .lit cs, s, pos =>
    if cs.isPrefixOf (s.drop pos) then [(pos + cs.length, none)] else []
  | .seq a b, s, pos =>
    (a.mat s pos).flatMap fun eg =>
      (b.mat s eg.1).map fun eg2 => (eg2.1, eg.2 <|> eg2.2)
  | .alt a b, s, pos => a.mat s pos ++ b.mat s pos
  | .opt a, s, pos => a.mat s pos ++ [(pos, none)]
  | .starC p, s, pos =>
    (List.range (runLen p s pos + 1)).reverse.map fun k => (pos + k, none)
  | .plusC p, s, pos =>
    (List.range (runLen p s pos)).reverse.map fun k => (pos + k + 1, none)
  | .lazyPlusC p, s, pos =>
    (List.range (runLen p s pos)).map fun k => (pos + k + 1, none)
  | .group a, s, pos => (a.mat s pos).map fun eg => (eg.1, some (pos, eg.1))
  | .bos, _, pos => if pos = 0 then [(pos, none)] else []
  | .eos, s, pos => if pos = s.length then [(pos, none)] else []
  | .bnd, s, pos =>
    let before := match pos with
      | 0 => false
      | p + 1 => (s.get? p).elim false isWordCh
    let after := (s.get? pos).elim false isWordCh
    if before ≠ after then [(pos, none)] else []

/-- Python `re.search`: the match at the leftmost feasible starting position,
taking the highest-priority backtracking alternative there.  Returns
`(start, end, group-1 span)`. -/
def pySearch (r : Re) (s : Chars) : Option (Nat × Nat × Option (Nat × Nat)) :=
  (List.range (s.length + 1)).findSome? fun pos =>
    match r.mat s pos with
    | [] => none
    | eg :: _ => some (pos, eg.1, eg.2)

def pySearchB (r : Re) (s : Chars) : Bool := (pySearch r s).isSome

/-- One step of Python `re.sub`: text from `i` with every match of `r` (at
positions at or after `i`) replaced by `repl`.  The fuel argument bounds the
number of replacements; `s.length + 1` suffices since every pattern the
source substitutes consumes at least one character (a zero-width match is
skipped over one character, as CPython does). -/
def pySubFrom (r : Re) (repl : Chars) (s : Chars) : Nat → Nat → Chars
  | 0, i => s.drop i
  | fuel + 1, i =>
    match (List.range' i (s.length + 1 - i)).findSome? (fun pos =>
        match r.mat s pos with
        | [] => none
        | eg :: _ => some (pos, eg.1)) with
    | none => s.drop i
    | some (ms, me) =>
      slice s i ms ++ repl ++
        (if ms < me then pySubFrom r repl s fuel me
         else match s.get? me with
           | some c => c :: pySubFrom r repl s fuel (me + 1)
           | none => [])

/-- Python `re.sub(r, repl, s)` (replace all). -/
def pySub (r : Re) (repl : Chars) (s : Chars) : Chars :=
  pySubFrom r repl s (s.length + 1) 0

/-! Convenience regex constructors. -/

def reLit (s : String) : Re := .lit s.data
def chEq (c : Char) : Re := .ch (· = c)
def wsPlus : Re := .plusC wsB
def wsStar : Re := .starC wsB
def digPlus : Re := .plusC Char.isDigit
/-- `(?:a|b|…)` over a nonempty list, in order. -/
def alts : List Re → Re
  | [] => .eps
  | [r] => r
  | r :: t => .alt r (alts t)

/-! ## Argument values and dictionaries

Python passes argument values around as `Any`; the values the engine
actually produces are strings, floats, ints and booleans. -/

inductive Value where
  | vStr (s : Chars) : Value
  | vFloat (q : ℚ) : Value
  | vInt (n : Int) : Value
  | vBool (b : Bool) : Value
deriving DecidableEq, Repr

/-- Python truthiness of the values above (`0`, `0.0`, `""` and `False`
are falsy). -/
def Value.truthy : Value → Bool
  | .vStr s => !s.isEmpty
  | .vFloat q => q ≠ 0
  | .vInt n => n ≠ 0
  | .vBool b => b

/-- A Python dict with string keys, as an insertion-ordered association
list. -/
abbrev ArgsMap := List (String × Value)

/-- Python `d[k] = v`: replace in place if the key exists, else append. -/
def dictSet (m : ArgsMap) (k : String) (v : Value) : ArgsMap :=
  match m with
  | [] => [(k, v)]
  | (k', v') :: t => if k' = k then (k, v) :: t else (k', v') :: dictSet t k v

/-- Python `d.get(k)` / `k in d` combined: the stored value, if any. -/
def dictGet (m : ArgsMap) (k : String) : Option Value :=
  match m with
  | [] => none
  | (k', v') :: t => if k' = k then some v' else dictGet t k

/-! ## `ml_classifier/patterns.py` — INTENT_PATTERNS and SLOT_PATTERNS

Each rule stores the Python regex source string (whose length the intent
scorer consults) together with its embedded form. -/

def products? : Re := .seq (reLit "product") (.opt (chEq 's'))

def reCreate1 : Re := .seq .bnd (.seq
  (alts [reLit "add", reLit "create", reLit "new product", reLit "insert"]) .bnd)

def reCreate2 : Re := .seq .bnd (.seq (alts [reLit "add", reLit "create"])
  (.seq wsPlus (.seq (.opt (.seq (reLit "a") wsPlus))
    (.seq (.opt (.seq (reLit "new") wsPlus)) (.seq (reLit "product") .bnd)))))

def reUpdate1 : Re := .seq .bnd (.seq
  (alts [reLit "update", reLit "modify", reLit "change", reLit "edit"]) .bnd)

def reUpdate2 : Re := .seq .bnd (.seq
  (alts [reLit "update", reLit "modify", reLit "change", reLit "edit"])
  (.seq wsPlus (.seq (.opt (.seq (reLit "product") wsPlus))
    (.seq (.opt (.seq (reLit "id") wsPlus)) (.seq digPlus .bnd)))))

def reDelete1 : Re := .seq .bnd (.seq
  (alts [reLit "delete", reLit "remove", reLit "drop"]) .bnd)

def reDelete2 : Re := .seq .bnd (.seq
  (alts [reLit "delete", reLit "remove", reLit "drop"])
  (.seq wsPlus (.seq (.opt (.seq (reLit "product") wsPlus))
    (.seq (.opt (.seq (reLit "id") wsPlus)) (.seq digPlus .bnd)))))

def reGet1 : Re := .seq .bnd (.seq
  (alts [reLit "get", reLit "find", reLit "retrieve", reLit "show",
    reLit "display", reLit "view"]) .bnd)

def reGet2 : Re := .seq .bnd (.seq
  (alts [reLit "get", reLit "find", reLit "retrieve", reLit "show",
    reLit "display", reLit "view"])
  (.seq wsPlus (.seq (.opt (.seq (reLit "product") wsPlus))
    (.seq (.opt (.seq (reLit "id") wsPlus)) (.seq digPlus .bnd)))))

def reList1 : Re := .seq .bnd (.seq
  (alts [reLit "list", reLit "show", reLit "display", reLit "view", reLit "get"])
  (.seq wsPlus (.seq (.opt (.seq (reLit "all") wsPlus)) (.seq products? .bnd))))

def reList2 : Re := .seq .bnd (.seq (.opt (.seq (reLit "what") wsPlus))
  (.seq products? (.seq wsPlus
    (.seq (.opt (.seq (reLit "do") (.seq wsPlus (.seq (reLit "you") wsPlus))))
      (.seq (reLit "have") .bnd)))))

def reList3 : Re := .seq .bnd (.seq (alts [reLit "catalog", reLit "inventory"]) .bnd)

def reList4 : Re := .seq .bnd (.seq (alts [reLit "get", reLit "show"])
  (.seq wsPlus (.seq (reLit "recent") (.seq wsPlus
    (.seq (.opt (.seq (reLit "created") wsPlus)) (.seq products? .bnd))))))

def reList5 : Re := .seq .bnd (.seq (alts [reLit "show", reLit "get"])
  (.seq wsPlus (.seq (alts [reLit "latest", reLit "newest"])
    (.seq wsPlus (.seq products? .bnd)))))

def reList6 : Re := .seq .bnd (.seq
  (alts [reLit "recent", reLit "latest", reLit "newest"])
  (.seq wsPlus (.seq products? .bnd)))

/-- `INTENT_PATTERNS`, in the dict's insertion order; each rule carries the
regex source string, its embedding, and the base confidence. -/
def INTENT_PATTERNS : List (String × List (String × Re × ℚ)) :=
  [("product.create",
    [("\\b(?:add|create|new product|insert)\\b", reCreate1, 9/10),
     ("\\b(?:add|create)\\s+(?:a\\s+)?(?:new\\s+)?product\\b", reCreate2, 95/100)]),
   ("product.update",
    [("\\b(?:update|modify|change|edit)\\b", reUpdate1, 9/10),
     ("\\b(?:update|modify|change|edit)\\s+(?:product\\s+)?(?:id\\s+)?\\d+\\b",
       reUpdate2, 95/100)]),
   ("product.delete",
    [("\\b(?:delete|remove|drop)\\b", reDelete1, 9/10),
     ("\\b(?:delete|remove|drop)\\s+(?:product\\s+)?(?:id\\s+)?\\d+\\b",
       reDelete2, 95/100)]),
   ("product.get",
    [("\\b(?:get|find|retrieve|show|display|view)\\b", reGet1, 8/10),
     ("\\b(?:get|find|retrieve|show|display|view)\\s+(?:product\\s+)?(?:id\\s+)?\\d+\\b",
       reGet2, 9/10)]),
   ("product.list",
    [("\\b(?:list|show|display|view|get)\\s+(?:all\\s+)?products?\\b", reList1, 95/100),
     ("\\b(?:what\\s+)?products?\\s+(?:do\\s+you\\s+)?have\\b", reList2, 9/10),
     ("\\b(?:catalog|inventory)\\b", reList3, 85/100),
     ("\\b(?:get|show)\\s+recent\\s+(?:created\\s+)?products?\\b", reList4, 95/100),
     ("\\b(?:show|get)\\s+(?:latest|newest)\\s+products?\\b", reList5, 95/100),
     ("\\b(?:recent|latest|newest)\\s+products?\\b", reList6, 9/10)])]

/-- `(?:add|create|new product called?|product called?|named?)` -/
def nameVerbs : Re :=
  alts [reLit "add", reLit "create",
    .seq (reLit "new product calle") (.opt (chEq 'd')),
    .seq (reLit "product calle") (.opt (chEq 'd')),
    .seq (reLit "name") (.opt (chEq 'd'))]

/-- `(?:\s*,|\s+with|\s+price|$)` -/
def nameTail : Re :=
  alts [.seq wsStar (chEq ','), .seq wsPlus (reLit "with"),
    .seq wsPlus (reLit "price"), .eos]

/-- `(?:\s*,|\s+price|$)` -/
def descTail : Re :=
  alts [.seq wsStar (chEq ','), .seq wsPlus (reLit "price"), .eos]

/-- `([^,]+?)` -/
def nonCommaLazy : Re := .group (.lazyPlusC (· ≠ ','))

def reName1 : Re := .seq nameVerbs (.seq wsPlus (.seq nonCommaLazy nameTail))

def reName2 : Re := .seq (alts [reLit "add", reLit "create"])
  (.seq wsPlus (.seq nonCommaLazy nameTail))

/-- `(\d+(?:\.\d{2})?)` -/
def numGroup : Re := .group (.seq digPlus
  (.opt (.seq (chEq '.') (.seq (.ch Char.isDigit) (.ch Char.isDigit)))))

def rePrice1 : Re := .seq (reLit "price") (.seq wsStar (.seq (.opt (chEq '$')) numGroup))

def rePrice2 : Re := .seq (chEq '$') numGroup

def rePrice3 : Re := .seq numGroup (.seq wsStar (.seq (reLit "dollar") (.opt (chEq 's'))))

def reId1 : Re := .seq (.opt (.seq (reLit "product") wsPlus))
  (.seq (reLit "id") (.seq wsPlus (.group digPlus)))

def reId2 : Re := .seq
  (alts [reLit "update", reLit "modify", reLit "change", reLit "edit",
    reLit "delete", reLit "remove", reLit "drop", reLit "get",
    reLit "find", reLit "retrieve"])
  (.seq wsPlus (.seq (.opt (.seq (reLit "product") wsPlus)) (.group digPlus)))

def reDesc1 : Re := .seq (reLit "with") (.seq wsPlus (.seq nonCommaLazy descTail))

/-- `[:\s]+` -/
def colonWsPlus : Re := .plusC (fun c => c = ':' || wsB c)

def reDesc2 : Re := .seq (reLit "description")
  (.seq colonWsPlus (.seq nonCommaLazy descTail))

def reDesc3 : Re := .seq (reLit "feature") (.seq (.opt (chEq 's'))
  (.seq colonWsPlus (.seq nonCommaLazy descTail)))

/-- `SLOT_PATTERNS` from `ml_classifier/patterns.py`. -/
def SLOT_PATTERNS : List (String × List (Re × ℚ)) :=
  [("name", [(reName1, 9/10), (reName2, 85/100)]),
   ("price", [(rePrice1, 95/100), (rePrice2, 9/10), (rePrice3, 85/100)]),
   ("id", [(reId1, 95/100), (reId2, 9/10)]),
   ("description", [(reDesc1, 9/10), (reDesc2, 95/100), (reDesc3, 9/10)])]

/-! ## `ml_classifier/processors.py` — value processors -/

/-- Collapse whitespace runs to single spaces (`re.sub(r'\s+', ' ', v)`). -/
def collapseWs (v : Chars) : Chars := pySub (.plusC wsB) (str " ") v

def process_name (v : Chars) : Option Value :=
  let name := pyStrip (collapseWs v)
  if name.isEmpty then none else some (.vStr (pyTitle name))

def process_price (v : Chars) : Option Value := (pyFloat v).map .vFloat

def process_id (v : Chars) : Option Value := (pyInt v).map .vInt

def process_description (v : Chars) : Option Value :=
  let d := pyStrip (collapseWs v)
  if d.isEmpty then none else some (.vStr d)

/-- `VALUE_PROCESSORS` lookup. -/
def value_processor (slotName : String) : Option (Chars → Option Value) :=
  if slotName = "name" then some process_name
  else if slotName = "price" then some process_price
  else if slotName = "id" then some process_id
  else if slotName = "description" then some process_description
  else none

/-! ## `ml_classifier/models.py` and `ml_classifier/extractors.py` -/

structure Slot where
  name : String
  value : Value
  confidence : ℚ
  start_pos : Nat
  end_pos : Nat
deriving DecidableEq, Repr

/-- `extract_slot(slot_name, text, text_lower)`: first pattern (in table
order) that matches the lower-cased text and whose processed capture is
usable wins.  The original-case `text` argument is carried, as in the source
where it is unused.  (A match whose group did not participate would raise in
Python; the repository's patterns make their group mandatory, so that case
cannot occur and is mapped to "no slot".) -/
def extract_slot (slot_name : String) (text text_lower : Chars) : Option Slot :=
  match SLOT_PATTERNS.find? (fun e => e.1 = slot_name) with
  | none => none
  | some (_, pats) =>
    pats.findSome? fun pr =>
      match pySearch pr.1 text_lower with
      | none => none
      | some (_, _, none) => none
      | some (_, _, some (gs, ge)) =>
        let raw := pyStrip (slice text_lower gs ge)
        match value_processor slot_name with
        | none => none
        | some proc =>
          match proc raw with
          | none => none
          | some v => some ⟨slot_name, v, pr.2, gs, ge⟩

def extract_create_slots (text text_lower : Chars) : List Slot :=
  (extract_slot "name" text text_lower).toList ++
  (extract_slot "price" text text_lower).toList ++
  (extract_slot "description" text text_lower).toList

def extract_update_slots (text text_lower : Chars) : List Slot :=
  (extract_slot "id" text text_lower).toList ++
  (extract_slot "name" text text_lower).toList ++
  (extract_slot "price" text text_lower).toList ++
  (extract_slot "description" text text_lower).toList

def extract_delete_slots (text text_lower : Chars) : List Slot :=
  (extract_slot "id" text text_lower).toList

def extract_get_slots (text text_lower : Chars) : List Slot :=
  (extract_slot "id" text text_lower).toList

/-! ## Description fallback (`extractors.py: extract_description_fallback`)

The source splices already-extracted values back into regex text with
f-strings; `re.escape` makes the name literal, while the price value is
spliced verbatim, so its decimal point acts as the regex any-character
metacharacter and the bare `$` of the second alternative acts as the
end-of-string anchor. -/

/-- Digits of a natural number. -/
def natDigits (n : Nat) : Chars := Nat.toDigits 10 n

/-- Python `str(x)` for the non-negative float values this engine produces
(at most two significant decimal places): integral values render with a
trailing `.0`, otherwise trailing zeros are dropped. -/
def pyFloatStr (q : ℚ) : Chars :=
  let ip := natDigits (q.num.toNat / q.den)
  if q.den = 1 then ip ++ str ".0"
  else if (q * 10).den = 1 then
    ip ++ '.' :: natDigits ((q.num.toNat * 10 / q.den) % 10)
  else
    ip ++ '.' :: natDigits ((q.num.toNat * 100 / q.den) % 100 / 10) ++
      natDigits ((q.num.toNat * 100 / q.den) % 10)

/-- A verbatim splice of plain text into regex source: every character is a
literal except `.`, which matches any character. -/
def litDotAny (cs : Chars) : Re :=
  cs.foldr (fun c r => .seq (if c = '.' then .ch (fun _ => true) else chEq c) r) .eps

/-- `rf'price\s*\$?-v-|$-v-|-v-\s*dollars?'` with the float value `v`
spliced in verbatim. -/
def priceRemovalRe (v : ℚ) : Re :=
  alts [.seq (reLit "price") (.seq wsStar (.seq (.opt (chEq '$')) (litDotAny (pyFloatStr v)))),
    .seq .eos (litDotAny (pyFloatStr v)),
    .seq (litDotAny (pyFloatStr v)) (.seq wsStar (.seq (reLit "dollar") (.opt (chEq 's'))))]

/-- `rf'(?:add|create|new product called?|product called?|named?)\s+-escaped name-'` -/
def nameRemovalRe (nameLower : Chars) : Re :=
  .seq nameVerbs (.seq wsPlus (.lit nameLower))

/-- `^\s*[,]\s*` -/
def leadingCommaRe : Re := .seq .bos (.seq wsStar (.seq (chEq ',') wsStar))

def extract_description_fallback (text : Chars) (existing_slots : List Slot) :
    Option Slot :=
  let text_lower := pyLower text
  let temp_text := existing_slots.foldl (fun t s =>
    if s.name = "name" then
      match s.value with
      | .vStr nm => pySub (nameRemovalRe (pyLower nm)) [] t
      | _ => t
    else if s.name = "price" then
      match s.value with
      | .vFloat p => pySub (priceRemovalRe p) [] t
      | _ => t
    else t) text_lower
  let temp_text := pySub leadingCommaRe [] temp_text
  let temp_text := pyStrip (collapseWs temp_text)
  if temp_text ≠ [] ∧ temp_text.length > 2 then
    some ⟨"description", .vStr temp_text, 7/10, 0, temp_text.length⟩
  else none

/-! ## `ml_classifier/joint_classifier.py` — rule-based joint classifier -/

structure IntentSlotResult where
  intent : String
  intent_confidence : ℚ
  slots : List Slot
  raw_text : Chars
deriving Repr

/-- `_classify_intent`: fold over all rules of all intents, tracking the
best `(intent, confidence)` seen, seeded with the default
`("product.list", 0.5)`; a matching rule scores its base confidence plus
`0.05` when its regex source string is longer than 20 characters, and only
a strictly larger score displaces the current best. -/
def classify_intent (text : Chars) : String × ℚ :=
  INTENT_PATTERNS.foldl (fun best ip =>
    ip.2.foldl (fun best pr =>
      if pySearchB pr.2.1 text then
        let conf := pr.2.2 + (if pr.1.length > 20 then 1/20 else 0)
        if best.2 < conf then (ip.1, conf) else best
      else best) best)
    ("product.list", 1/2)

def extract_slots (text text_lower : Chars) (intent : String) : List Slot :=
  if intent = "product.create" then extract_create_slots text text_lower
  else if intent = "product.update" then extract_update_slots text text_lower
  else if intent = "product.delete" then extract_delete_slots text text_lower
  else if intent = "product.get" then extract_get_slots text text_lower
  else []

def post_process_slots (slots : List Slot) (intent : String) (text : Chars) :
    List Slot :=
  if intent = "product.create" then
    if slots.all (fun s => s.name ≠ "description") then
      match extract_description_fallback text slots with
      | some d => slots ++ [d]
      | none => slots
    else slots
  else slots

/-- `JointIntentSlotClassifier.classify` (the classifier object holds no
state beyond the fixed pattern table). -/
def jointClassify (text : Chars) : IntentSlotResult :=
  let text_lower := pyLower text
  let ic := classify_intent text_lower
  let slots := extract_slots text text_lower ic.1
  let slots := post_process_slots slots ic.1 text
  ⟨ic.1, ic.2, slots, text⟩

/-- The dictionary produced by `JointIntentSlotClassifier.to_dict`. -/
structure JointResponse where
  tool_name : String
  tool_args : ArgsMap
  confidence : ℚ
  method : String
  slots : List (String × Value × ℚ)
deriving Repr

def recentWords : List Chars := [str "recent", str "latest", str "newest"]

def to_dict (r : IntentSlotResult) : JointResponse :=
  let tool_args := r.slots.foldl (fun m s => dictSet m s.name s.value) []
  let tool_args :=
    if r.intent = "product.list" ∧
        recentWords.any (fun w => containsSub w (pyLower r.raw_text)) then
      dictSet (dictSet tool_args "limit" (.vInt 1)) "recent_only" (.vBool true)
    else tool_args
  ⟨r.intent, tool_args, r.intent_confidence, "ml_joint_classifier",
    r.slots.map (fun s => (s.name, s.value, s.confidence))⟩

/-- The full rule-based public entrypoint: classify, then serialize. -/
def classify_with_rules (text : Chars) : JointResponse :=
  to_dict (jointClassify text)

/-! ## `classifier/argument_extractor.py` — dynamic argument extractor -/

def name_patterns : List Re := [reName1, reName2]

/-- `(\d+(?:\.\d{2})?)\s*USD` (searched against the lower-cased message, so
the upper-case literal never matches — kept verbatim from the source). -/
def reUSD : Re := .seq numGroup (.seq wsStar (reLit "USD"))

def price_patterns : List Re := [rePrice1, rePrice2, rePrice3, reUSD]

def id_patterns : List Re := [reId1, reId2]

def description_patterns : List Re := [reDesc1, reDesc2, reDesc3]

def letterGroup : Re := .group (.ch Char.isAlpha)

def name_prefix_patterns : List Re :=
  [.seq (reLit "starting") (.seq wsPlus (.seq (reLit "with") (.seq wsPlus letterGroup))),
   .seq (reLit "that") (.seq wsPlus (.seq (reLit "start") (.seq wsPlus
     (.seq (reLit "with") (.seq wsPlus letterGroup))))),
   .seq (reLit "beginning") (.seq wsPlus (.seq (reLit "with") (.seq wsPlus letterGroup))),
   .seq (reLit "starting") (.seq wsPlus (.seq (reLit "with") (.seq wsPlus
     (.seq (reLit "letter") (.seq wsPlus letterGroup)))))]

/-- `_extract_name`: first matching pattern's capture, stripped,
whitespace-collapsed, title-cased. -/
def extract_name (message_lower : Chars) : Option Chars :=
  name_patterns.findSome? fun r =>
    match pySearch r message_lower with
    | some (_, _, some (gs, ge)) =>
      some (pyTitle (collapseWs (pyStrip (slice message_lower gs ge))))
    | _ => none

/-- `_extract_price`: first capture that parses as a float; a parse failure
falls through to the next pattern. -/
def extract_price (message_lower : Chars) : Option ℚ :=
  price_patterns.findSome? fun r =>
    match pySearch r message_lower with
    | some (_, _, some (gs, ge)) => pyFloat (slice message_lower gs ge)
    | _ => none

/-- `_extract_id`: first capture that parses as an int. -/
def extract_id (message_lower : Chars) : Option Int :=
  id_patterns.findSome? fun r =>
    match pySearch r message_lower with
    | some (_, _, some (gs, ge)) => pyInt (slice message_lower gs ge)
    | _ => none

/-- `_extract_name_prefix`: first capture, stripped and upper-cased. -/
def extract_name_start_letter (message_lower : Chars) : Option Chars :=
  name_prefix_patterns.findSome? fun r =>
    match pySearch r message_lower with
    | some (_, _, some (gs, ge)) =>
      some ((pyStrip (slice message_lower gs ge)).map Char.toUpper)
    | _ => none

/-- `_extract_description`: explicit patterns first; otherwise remove the
extracted name (and price) from the message and use the remainder when it
is longer than two characters. -/
def extract_description (message_lower : Chars) : Option Chars :=
  match description_patterns.findSome? (fun r =>
      match pySearch r message_lower with
      | some (_, _, some (gs, ge)) =>
        some (collapseWs (pyStrip (slice message_lower gs ge)))
      | _ => none) with
  | some d => some d
  | none =>
    match extract_name message_lower with
    | none => none
    | some nm =>
      let t := pySub (nameRemovalRe (pyLower nm)) [] message_lower
      let t := match extract_price message_lower with
        | some p => pySub (priceRemovalRe p) [] t
        | none => t
      let t := pyStrip (collapseWs (pySub leadingCommaRe [] t))
      if t ≠ [] ∧ t.length > 2 then some t else none

/-- `_extract_create_args`; note the Python truthiness tests, which drop an
empty-string name/description and a zero price. -/
def extract_create_args (message_lower : Chars) : ArgsMap :=
  let args : ArgsMap := []
  let args := match extract_name message_lower with
    | some n => if (Value.vStr n).truthy then dictSet args "name" (.vStr n) else args
    | none => args
  let args := match extract_price message_lower with
    | some p => if (Value.vFloat p).truthy then dictSet args "price" (.vFloat p) else args
    | none => args
  let args := match extract_description message_lower with
    | some d => if (Value.vStr d).truthy then dictSet args "description" (.vStr d) else args
    | none => args
  args

def extract_update_args (message_lower : Chars) : ArgsMap :=
  let args : ArgsMap := []
  let args := match extract_id message_lower with
    | some i => if (Value.vInt i).truthy then dictSet args "id" (.vInt i) else args
    | none => args
  let args := match extract_name message_lower with
    | some n => if (Value.vStr n).truthy then dictSet args "name" (.vStr n) else args
    | none => args
  let args := match extract_price message_lower with
    | some p => if (Value.vFloat p).truthy then dictSet args "price" (.vFloat p) else args
    | none => args
  let args := match extract_description message_lower with
    | some d => if (Value.vStr d).truthy then dictSet args "description" (.vStr d) else args
    | none => args
  args

def extract_delete_args (message_lower : Chars) : ArgsMap :=
  match extract_id message_lower with
  | some i => if (Value.vInt i).truthy then dictSet [] "id" (.vInt i) else []
  | none => []

def extract_get_args (message_lower : Chars) : ArgsMap :=
  match extract_id message_lower with
  | some i => if (Value.vInt i).truthy then dictSet [] "id" (.vInt i) else []
  | none => []

def extract_list_args (message_lower : Chars) : ArgsMap :=
  match extract_name_start_letter message_lower with
  | some p => if (Value.vStr p).truthy then dictSet [] "name_prefix" (.vStr p) else []
  | none => []

/-- `ArgumentExtractor.extract_arguments`: dispatch on the tool name; the
static (template) arguments are returned only for tools outside the five
known product operations. -/
def extract_arguments (message : Chars) (tool_name : String)
    (static_args : ArgsMap) : ArgsMap :=
  let message_lower := pyLower message
  if tool_name = "product.create" then extract_create_args message_lower
  else if tool_name = "product.update" then extract_update_args message_lower
  else if tool_name = "product.delete" then extract_delete_args message_lower
  else if tool_name = "product.get" then extract_get_args message_lower
  else if tool_name = "product.list" then extract_list_args message_lower
  else static_args

/-! ## `classifier/models.py` — corpus data model -/

structure QueryPattern where
  query_pattern : Chars
  tool_name : String
  tool_args : String
  confidence : ℚ
  query_type : String
  entity : String
  intent : String
  description : String
deriving DecidableEq, Repr

structure ClassificationResult where
  tool_name : String
  tool_args : ArgsMap
  confidence : ℚ
  method : String
  query_type : String
  entity : String
  intent : String
  description : String
deriving DecidableEq, Repr

/-! ## `classifier/training/ml_classifier.py` — corpus-trained classifier

The scikit-learn pipeline (tf-idf vectorizer + multinomial naive Bayes) is
an external library; it is embedded as an abstract predictor.  The fitting
step is a parameter `fit`, and the facts the proofs need about it — the
predicted label is one of the labels seen during fitting, and the
probability vector lies in `[0,1]` — are stated as hypotheses where used.
Likewise `ast.literal_eval` (the Python standard library parse of the
stored argument-template literal) is a parameter `litEval`; the source
wraps it in `try/except` with an empty-dict fallback. -/

structure Pipeline where
  predict : Chars → String
  predictProba : Chars → List ℚ

structure MLState where
  patterns : List QueryPattern
  pipeline : Option Pipeline
  is_trained : Bool

/-- The fresh classifier `MLClassifier(patterns)`. -/
def MLState.init (patterns : List QueryPattern) : MLState :=
  ⟨patterns, none, false⟩

/-- `MLClassifier.train`: with no patterns, log a warning and leave the
classifier untouched; otherwise fit a pipeline on the pattern texts and
tool names and mark the classifier trained. -/
def MLState.train (fit : List QueryPattern → Pipeline) (st : MLState) : MLState :=
  if st.patterns = [] then st
  else ⟨st.patterns, some (fit st.patterns), true⟩

/-- Python `max(xs)` for the probability vector (Python raises on an empty
sequence; the total model returns `0` there, and every theorem that touches
this value covers that branch explicitly). -/
def pymax : List ℚ → ℚ
  | [] => 0
  | h :: t => t.foldl max h

/-- `MLClassifier._calculate_similarity`: word-set overlap of the
lower-cased, whitespace-split texts. -/
def calculate_similarity (message pat : Chars) : ℚ :=
  let message_words := (splitWs (pyLower message)).dedup
  let pattern_words := (splitWs (pyLower pat)).dedup
  if pattern_words = [] then 0
  else
    let intersection := message_words.filter (fun w => pattern_words.contains w)
    let union := (message_words ++ pattern_words).dedup
    if union = [] then 0 else (intersection.length : ℚ) / (union.length : ℚ)

/-- `MLClassifier._default_result`. -/
def default_result : ClassificationResult :=
  ⟨"product.list", [], 1/2, "default", "simple", "products", "list", "Default fallback"⟩

/-- The best-pattern selection loop of `MLClassifier.classify`: scan the
patterns in corpus order, keeping the first pattern of the predicted tool
whose similarity strictly exceeds every earlier one (the scan starts at
similarity `0`, so a pattern is only ever selected with strictly positive
similarity). -/
def selectBest (patterns : List QueryPattern) (predicted : String) (message : Chars) :
    ℚ × Option QueryPattern :=
  patterns.foldl (fun acc p =>
    if p.tool_name = predicted then
      let similarity := calculate_similarity message p.query_pattern
      if acc.1 < similarity then (similarity, some p) else acc
    else acc) ((0 : ℚ), none)

/-- `MLClassifier.classify`: train lazily if untrained; without a pipeline
return the default result; otherwise predict, take the maximal class
probability, select the best matching pattern of the predicted tool, and
combine confidences.  Returns the result together with the updated
classifier state. -/
def MLState.classify (fit : List QueryPattern → Pipeline)
    (litEval : String → Option ArgsMap) (st : MLState) (message : Chars) :
    ClassificationResult × MLState :=
  let st1 := if st.is_trained then st else st.train fit
  match st1.pipeline with
  | none => (default_result, st1)
  | some pl =>
    let predicted_tool := pl.predict message
    let confidence := pymax (pl.predictProba message)
    match (selectBest st1.patterns predicted_tool message).2 with
    | some best_pattern =>
      (⟨best_pattern.tool_name, (litEval best_pattern.tool_args).getD [],
        confidence * best_pattern.confidence, "ml_classifier",
        best_pattern.query_type, best_pattern.entity, best_pattern.intent,
        best_pattern.description⟩, st1)
    | none => (default_result, st1)

/-! ## `classifier/csv_classifier.py` — result assembly -/

/-- `CSVBasedClassifier._enhance_with_dynamic_extraction`: replace the
result's arguments by the dynamically extracted ones, then force
`limit = 1` and `recent_only = true` for a list request mentioning
recent/latest/newest. -/
def enhance_with_dynamic_extraction (message : Chars) (r : ClassificationResult) :
    ClassificationResult :=
  let dynamic_args := extract_arguments message r.tool_name r.tool_args
  let dynamic_args :=
    if r.tool_name = "product.list" ∧
        recentWords.any (fun w => containsSub w (pyLower message)) then
      dictSet (dictSet dynamic_args "limit" (.vInt 1)) "recent_only" (.vBool true)
    else dynamic_args
  ⟨r.tool_name, dynamic_args, r.confidence, r.method, r.query_type, r.entity,
    r.intent, r.description⟩

/-- The corpus-trained public entrypoint (`CSVBasedClassifier.classify`
after a model/patterns load): ML classification followed by dynamic
argument enhancement. -/
def classify_with_corpus_model (fit : List QueryPattern → Pipeline)
    (litEval : String → Option ArgsMap) (st : MLState) (message : Chars) :
    ClassificationResult :=
  enhance_with_dynamic_extraction message (st.classify fit litEval message).1

/-! ## `classifier/training/csv_loader.py` — corpus loader

A CSV source is a list of rows; a row is `some pattern` when all its cells
parse into a `QueryPattern` and `none` when constructing the pattern raises
(missing column, unparsable confidence).  `_load_csv_file` appends parsed
rows until the first failure, whose exception is caught and logged, so the
rows read before it survive and the remainder of that file is dropped;
the function itself never raises. -/

def load_csv_file : List (Option QueryPattern) → List QueryPattern
  | [] => []
  | some p :: t => p :: load_csv_file t
  | none :: _ => []

/-- `load_patterns_from_csv`: extend the aggregate list file by file, in
source discovery order. -/
def load_patterns_from_csv (files : List (List (Option QueryPattern))) :
    List QueryPattern :=
  files.foldl (fun patterns f => patterns ++ load_csv_file f) []

/-! ## Views and concrete instances used by the verification -/

/-- The closed set of tool identifiers (spec: create/update/delete/get/list;
the source spells them with the `product.` prefix throughout). -/
def FIVE_TOOLS : List String :=
  ["product.create", "product.update", "product.delete", "product.get",
   "product.list"]

/-- The intent rule table flattened in iteration order
(first-discovered-intent, then first-rule). -/
def flatRules : List (String × String × Re × ℚ) :=
  INTENT_PATTERNS.flatMap fun ip => ip.2.map fun pr => (ip.1, pr)

/-- The score `_classify_intent` assigns to a matching rule. -/
def ruleScore (pr : String × Re × ℚ) : ℚ :=
  pr.2.2 + (if pr.1.length > 20 then 1/20 else 0)

/-- The `(intent, score)` pairs of the rules matching `text`, in iteration
order. -/
def scoredRules (text : Chars) : List (String × ℚ) :=
  flatRules.filterMap fun a =>
    if pySearchB a.2.2.1 text then some (a.1, ruleScore a.2) else none

/-- Modelled from the spec: the corpus CSV data files under
`classifier/training/patterns/` are not among the sources; per the spec's
data model, every loaded pattern carries a `base_confidence` in `[0,1]` and
one of the five closed tool identifiers. -/
def corpusWellFormed (ps : List QueryPattern) : Prop :=
  ∀ p ∈ ps, p.tool_name ∈ FIVE_TOOLS ∧ 0 ≤ p.confidence ∧ p.confidence ≤ 1

/-- The contract of the fitted scikit-learn pipeline (external library,
treated as a black box): the predicted label is one of the labels it was
fitted on, and predicted probabilities lie in `[0,1]`. -/
def PipelineSound (pl : Pipeline) (ps : List QueryPattern) : Prop :=
  (∀ m, pl.predict m ∈ ps.map QueryPattern.tool_name) ∧
  (∀ m q, q ∈ pl.predictProba m → 0 ≤ q ∧ q ≤ 1)

/-- The per-file surviving rows: the parsed rows before the first
malformed one. -/
def goodPrefix (f : List (Option QueryPattern)) : List QueryPattern :=
  (f.takeWhile Option.isSome).filterMap id

/-- A fitting function whose pipeline always predicts a fixed label with
probability vector `[1]` (used to instantiate external-model hypotheses at
concrete inputs). -/
def fitConst (tool : String) : List QueryPattern → Pipeline :=
  fun _ => ⟨fun _ => tool, fun _ => [1]⟩

/-- A literal-eval stub that fails on everything (the source then falls
back to the empty dict). -/
def litEvalNone : String → Option ArgsMap := fun _ => none

/-- A literal-eval stub mapping the template tag "T" to the argument map
with `id = 99` (standing for a stored template literal with that content). -/
def litEvalId99 : String → Option ArgsMap :=
  fun s => if s = "T" then some [("id", Value.vInt 99)] else none

def patDelete : QueryPattern :=
  ⟨str "delete", "product.delete", "T", 9/10, "simple", "products",
    "delete", "Delete one product"⟩

def patHello : QueryPattern :=
  ⟨str "hello", "product.get", "EMPTY", 9/10, "simple", "products",
    "get", "Greeting-shaped pattern"⟩

def patListProducts : QueryPattern :=
  ⟨str "list products", "product.list", "A", 9/10, "simple", "products",
    "list", "List all products"⟩

def patRowB : QueryPattern :=
  ⟨str "b", "product.list", "B", 9/10, "simple", "products",
    "list", "Second row"⟩

/-- One step of the best-pattern selection loop (the loop body of
`selectBest`, named so the selection proofs can speak about it). -/
def selectBestStep (predicted : String) (message : Chars)
    (acc : ℚ × Option QueryPattern) (p : QueryPattern) :
    ℚ × Option QueryPattern :=
  if p.tool_name = predicted then
    let similarity := calculate_similarity message p.query_pattern
    if acc.1 < similarity then (similarity, some p) else acc
  else acc

/-! ## Helper lemmas -/

theorem dictGet_dictSet (m : ArgsMap) (k k' : String) (v : Value) :
    dictGet (dictSet m k v) k' = if k = k' then some v else dictGet m k' := by
  induction m with
  | nil => simp [dictSet, dictGet]
  | cons h t ih =>
    obtain ⟨hk, hv⟩ := h
    by_cases e : hk = k
    · subst e
      by_cases e' : hk = k' <;> simp [dictSet, dictGet, e']
    · by_cases e' : hk = k'
      · subst e'
        have : ¬(k = hk) := fun h => e h.symm
        simp [dictSet, dictGet, e, this]
      · simp [dictSet, dictGet, e, e', ih]

theorem load_csv_file_eq_goodPrefix : ∀ f, load_csv_file f = goodPrefix f := by
  intro f
  induction f with
  | nil => rfl
  | cons h t ih =>
    cases h with
    | none => simp [load_csv_file, goodPrefix, List.takeWhile]
    | some p => simp [load_csv_file, goodPrefix, List.takeWhile] at ih ⊢; exact ih

theorem load_patterns_foldl (files : List (List (Option QueryPattern))) :
    ∀ acc, files.foldl (fun ps f => ps ++ load_csv_file f) acc =
      acc ++ (files.map load_csv_file).flatten := by
  induction files with
  | nil => intro acc; simp
  | cons f t ih => intro acc; simp [List.foldl_cons, ih]

/-! ## C5 — untrained corpus classifier with an empty corpus -/

/-- C5: the corpus-trained classifier trains lazily on first
classification (a fresh classifier starts untrained); when no trainable
model results because zero patterns are loaded, every input classifies to
exactly the default result, whose fields are
`tool_id = product.list`, empty arguments, confidence `0.5`, and method
`"default"` — no exception path exists (the embedding is a total
function). -/
theorem C5_empty_corpus_default :
    ∀ (fit : List QueryPattern → Pipeline) (litEval : String → Option ArgsMap)
      (message : Chars),
      (MLState.classify fit litEval (MLState.init []) message).1 = default_result ∧
      default_result.tool_name = "product.list" ∧
      default_result.tool_args = [] ∧
      default_result.confidence = 1/2 ∧
      default_result.method = "default" :=
  fun _ _ _ => ⟨rfl, rfl, rfl, rfl, rfl⟩

/-! ## C7 — slot extraction on the worked example -/

/-- C7: on "add Smart Lamp, with remote control, price $49.99", slot
extraction produces the title-cased, whitespace-collapsed name
"Smart Lamp", the price as the decimal number 49.99 (a float value, not a
string), and a description that contains "remote control" while excluding
the price text. -/
theorem C7_smart_lamp_slots :
    (extract_slot "name" (str "add Smart Lamp, with remote control, price $49.99")
        (pyLower (str "add Smart Lamp, with remote control, price $49.99"))).map
        Slot.value = some (.vStr (str "Smart Lamp")) ∧
    (extract_slot "price" (str "add Smart Lamp, with remote control, price $49.99")
        (pyLower (str "add Smart Lamp, with remote control, price $49.99"))).map
        Slot.value = some (.vFloat (4999/100)) ∧
    ∃ d : Chars,
      (extract_slot "description"
          (str "add Smart Lamp, with remote control, price $49.99")
          (pyLower (str "add Smart Lamp, with remote control, price $49.99"))).map
          Slot.value = some (.vStr d) ∧
      containsSub (str "remote control") d = true ∧
      containsSub (str "49.99") d = false ∧
      containsSub (str "price") d = false ∧
      containsSub (str "$") d = false := by
  refine ⟨by with_unfolding_all rfl, by with_unfolding_all rfl,
    str "remote control", by with_unfolding_all rfl, ?_, ?_, ?_, ?_⟩ <;> decide

/-! ## C8 — corpus loader and malformed rows (corrected) -/

/-- C8 counterexample: with a single source holding a parsed row, then a
malformed row, then another parsed row, the loader keeps only the first
row — the claim's "only a malformed row's own pattern is lost" would
require the third row to survive. -/
theorem C8_counterexample :
    load_patterns_from_csv [[some patHello, none, some patRowB]] = [patHello] ∧
    load_patterns_from_csv [[some patHello, none, some patRowB]] ≠
      [patHello, patRowB] := by
  have base : load_patterns_from_csv [[some patHello, none, some patRowB]] =
      [patHello] := rfl
  refine ⟨base, fun h => ?_⟩
  rw [base] at h
  simp at h

/-- C8 (amended): the loader never raises for a malformed row (it is a
total function); each source contributes exactly the parsed rows preceding
its first malformed row (so a malformed row loses itself and every later
row of the same source, while other sources are unaffected), and the
aggregate keeps source discovery order, then row order. -/
theorem C8_loader_good_prefixes :
    ∀ files, load_patterns_from_csv files = (files.map goodPrefix).flatten := by
  intro files
  have h := load_patterns_foldl files []
  simp only [load_patterns_from_csv, h, List.nil_append]
  congr 1
  exact List.map_congr_left fun f _ => load_csv_file_eq_goodPrefix f

/-! ## C9 — slot extraction is deterministic -/

/-- C9: the slot extractor is a pure function of its arguments — two
evaluations on the same `(slot_name, text)` pair agree; indeed the result
depends only on the slot name and the lower-cased text (the original-case
argument, unused in the source, cannot influence the outcome), so identical
inputs always yield the identical `Slot` or identical absence. -/
theorem C9_extract_slot_deterministic :
    ∀ (slot_name : String) (t₁ t₂ text_lower : Chars),
      extract_slot slot_name t₁ text_lower = extract_slot slot_name t₂ text_lower :=
  fun _ _ _ _ => rfl

/-! ## C10 — zero values: corpus extractor drops them, rule path keeps them -/

/-- C10: the two extraction paths treat a zero value differently.  In the
corpus path's dynamic extractor a zero id (or zero price) is dropped by the
Python truthiness test, for every message; in the rule-based path's slot
extractor a zero-valued slot is kept (only a failed parse is discarded).
Concretely, "delete product 0" yields no `id` argument through the corpus
extractor but an `id = 0` slot through the rule-based extractor. -/
theorem C10_zero_value_asymmetry :
    (∀ message_lower : Chars, extract_id message_lower = some 0 →
      extract_delete_args message_lower = []) ∧
    (∀ message_lower : Chars, extract_price message_lower = some 0 →
      dictGet (extract_create_args message_lower) "price" = none) ∧
    extract_delete_args (pyLower (str "delete product 0")) = [] ∧
    extract_slot "id" (str "delete product 0") (pyLower (str "delete product 0")) =
      some ⟨"id", .vInt 0, 9/10, 15, 16⟩ := by
  refine ⟨?_, ?_, by with_unfolding_all rfl, by with_unfolding_all rfl⟩
  · intro ml h
    simp [extract_delete_args, h, Value.truthy]
  · intro ml h
    simp only [extract_create_args, h, Value.truthy]
    rcases hn : extract_name ml with _ | n <;>
      rcases hd : extract_description ml with _ | d <;>
        simp [dictGet, dictGet_dictSet] <;> split_ifs <;>
          simp [dictGet, dictGet_dictSet]

/-- C10 witness: the general corpus-path statement applied at the concrete
input "delete product 0", whose extracted id is `0`. -/
theorem C10_witness :
    extract_delete_args (pyLower (str "delete product 0")) = [] :=
  C10_zero_value_asymmetry.1 (pyLower (str "delete product 0"))
    (by with_unfolding_all rfl)

/-! ## C6 — argument template versus dynamic extraction (corrected) -/

/-- C6 counterexample: a corpus pattern for `product.delete` whose
argument template carries `id = 99` is selected (similarity 1) for the
message "delete"; the template does seed the intermediate result's
arguments, but the assembled final result has no `id` argument at all —
dynamic extraction replaced the template instead of augmenting it. -/
theorem C6_counterexample :
    dictGet (MLState.classify (fitConst "product.delete") litEvalId99
      (MLState.init [patDelete]) (str "delete")).1.tool_args "id" =
      some (.vInt 99) ∧
    dictGet (classify_with_corpus_model (fitConst "product.delete") litEvalId99
      (MLState.init [patDelete]) (str "delete")).tool_args "id" = none := by
  constructor <;> with_unfolding_all rfl

/-- C6 (amended): in the corpus-trained path the selected pattern's
argument template becomes the arguments of the intermediate classification
result, but for each of the five product tools the final arguments are
computed solely by dynamic extraction from the input text — the template is
ignored rather than seeded and overridden; the static template passes
through only for tool names outside the five. -/
theorem C6_template_ignored :
    (∀ (message : Chars) (tool : String) (s₁ s₂ : ArgsMap),
      tool ∈ FIVE_TOOLS →
        extract_arguments message tool s₁ = extract_arguments message tool s₂) ∧
    (∀ (message : Chars) (tool : String) (s : ArgsMap),
      tool ∉ FIVE_TOOLS → extract_arguments message tool s = s) := by
  constructor
  · intro message tool s₁ s₂ h
    fin_cases h <;> rfl
  · intro message tool s h
    simp only [FIVE_TOOLS, List.mem_cons, List.mem_singleton] at h
    push_neg at h
    obtain ⟨h1, h2, h3, h4, h5⟩ := h
    simp [extract_arguments, h1, h2, h3, h4, h5]

/-- C6 witness: the amended statement applied at a concrete input — for the
tool `product.create`, two different static templates produce the same
extracted arguments. -/
theorem C6_witness :
    extract_arguments (str "hi") "product.create" [("x", Value.vInt 1)] =
      extract_arguments (str "hi") "product.create" [] :=
  C6_template_ignored.1 (str "hi") "product.create" [("x", Value.vInt 1)] []
    (by simp [FIVE_TOOLS])

/-! ## C4 — the recent/latest/newest heuristic on both paths -/

/-- C4: whenever the resolved intent is `product.list` and the raw text
contains one of the substrings "recent"/"latest"/"newest" (case-insensitive,
via the lower-cased text), the final arguments map carries `limit = 1` and
`recent_only = true`, overriding any value already present for those keys;
and this holds identically on the rule-based path (result serialization)
and on the corpus-trained path (result assembly). -/
theorem C4_recent_forces_limit :
    (∀ text : Chars,
      (jointClassify text).intent = "product.list" →
      recentWords.any (fun w => containsSub w (pyLower text)) = true →
      dictGet (to_dict (jointClassify text)).tool_args "limit" =
          some (.vInt 1) ∧
      dictGet (to_dict (jointClassify text)).tool_args "recent_only" =
          some (.vBool true)) ∧
    (∀ (fit : List QueryPattern → Pipeline) (litEval : String → Option ArgsMap)
      (st : MLState) (message : Chars),
      (MLState.classify fit litEval st message).1.tool_name = "product.list" →
      recentWords.any (fun w => containsSub w (pyLower message)) = true →
      dictGet (classify_with_corpus_model fit litEval st message).tool_args
          "limit" = some (.vInt 1) ∧
      dictGet (classify_with_corpus_model fit litEval st message).tool_args
          "recent_only" = some (.vBool true)) := by
  constructor
  · intro text h1 h2
    have hraw : (jointClassify text).raw_text = text := rfl
    simp only [to_dict]
    rw [if_pos ⟨h1, by rw [hraw]; exact h2⟩]
    constructor <;> simp [dictGet_dictSet]
  · intro fit litEval st message h1 h2
    simp only [classify_with_corpus_model, enhance_with_dynamic_extraction]
    rw [if_pos ⟨h1, h2⟩]
    constructor <;> simp [dictGet_dictSet]

/-- C4 witness: "show latest products" on both paths (rule-based directly;
corpus-trained with a pipeline predicting `product.list` over a corpus
holding a matching list pattern). -/
theorem C4_witness :
    (dictGet (to_dict (jointClassify (str "show latest products"))).tool_args
        "limit" = some (.vInt 1) ∧
      dictGet (to_dict (jointClassify (str "show latest products"))).tool_args
        "recent_only" = some (.vBool true)) ∧
    (dictGet (classify_with_corpus_model (fitConst "product.list") litEvalNone
        (MLState.init [patListProducts]) (str "show latest products")).tool_args
        "limit" = some (.vInt 1) ∧
      dictGet (classify_with_corpus_model (fitConst "product.list") litEvalNone
        (MLState.init [patListProducts]) (str "show latest products")).tool_args
        "recent_only" = some (.vBool true)) :=
  ⟨C4_recent_forces_limit.1 (str "show latest products")
      (by with_unfolding_all rfl) (by decide),
    C4_recent_forces_limit.2 (fitConst "product.list") litEvalNone
      (MLState.init [patListProducts]) (str "show latest products")
      (by with_unfolding_all rfl) (by decide)⟩

/-! ## Fold lemmas for the intent scorer -/

theorem foldl_guard_filterMap {α β γ : Type} (f : α → Option β) (step : γ → β → γ) :
    ∀ (l : List α) (b : γ),
      l.foldl (fun acc x => match f x with | some y => step acc y | none => acc) b =
        (l.filterMap f).foldl step b := by
  intro l
  induction l with
  | nil => intro b; rfl
  | cons h t ih => intro b; cases hf : f h <;> simp [List.filterMap_cons, hf, ih]

theorem classify_intent_eq_flat (text : Chars) :
    classify_intent text = flatRules.foldl (fun best a =>
      if pySearchB a.2.2.1 text then
        (if best.2 < ruleScore a.2 then (a.1, ruleScore a.2) else best)
      else best) ("product.list", 1/2) := by
  suffices h : ∀ (table : List (String × List (String × Re × ℚ)))
      (b : String × ℚ),
      table.foldl (fun best ip => ip.2.foldl (fun best pr =>
        if pySearchB pr.2.1 text then
          let conf := pr.2.2 + (if pr.1.length > 20 then 1/20 else 0)
          if best.2 < conf then (ip.1, conf) else best
        else best) best) b
      = (table.flatMap fun ip => ip.2.map fun pr => (ip.1, pr)).foldl (fun best a =>
        if pySearchB a.2.2.1 text then
          (if best.2 < ruleScore a.2 then (a.1, ruleScore a.2) else best)
        else best) b by
    exact h INTENT_PATTERNS _
  intro table
  induction table with
  | nil => intro b; rfl
  | cons ip t ih =>
    intro b
    have hcons : ((ip :: t).flatMap fun ip => ip.2.map fun pr => (ip.1, pr)) =
        (ip.2.map fun pr => (ip.1, pr)) ++
          (t.flatMap fun ip => ip.2.map fun pr => (ip.1, pr)) := rfl
    rw [List.foldl_cons, hcons, List.foldl_append, ih, List.foldl_map]
    rfl

theorem classify_intent_eq_scored (text : Chars) :
    classify_intent text =
      (scoredRules text).foldl (fun b x => if b.2 < x.2 then x else b)
        ("product.list", 1/2) := by
  rw [classify_intent_eq_flat, scoredRules]
  rw [← foldl_guard_filterMap
    (fun a => if pySearchB a.2.2.1 text then some (a.1, ruleScore a.2) else none)
    (fun b x => if b.2 < x.2 then x else b) flatRules ("product.list", 1/2)]
  congr 1
  funext best a
  by_cases h : pySearchB a.2.2.1 text <;> simp [h]

/-- The running-maximum fold either keeps its seed (nothing strictly
exceeded it) or returns the first list element that strictly exceeds the
seed and every earlier element, with no later element exceeding it. -/
theorem maxfold_spec :
    ∀ (l : List (String × ℚ)) (b : String × ℚ),
      (l.foldl (fun b x => if b.2 < x.2 then x else b) b = b ∧
        ∀ x ∈ l, x.2 ≤ b.2) ∨
      (∃ r l₁ l₂, l = l₁ ++ r :: l₂ ∧
        l.foldl (fun b x => if b.2 < x.2 then x else b) b = r ∧ b.2 < r.2 ∧
        (∀ x ∈ l₁, x.2 < r.2) ∧ (∀ x ∈ l₂, x.2 ≤ r.2)) := by
  intro l
  induction l with
  | nil => intro b; exact Or.inl ⟨rfl, by simp⟩
  | cons h t ih =>
    intro b
    by_cases hc : b.2 < h.2
    · rcases ih h with ⟨he, hall⟩ | ⟨r, l₁, l₂, hl, he, hlt, h1, h2⟩
      · refine Or.inr ⟨h, [], t, by simp, ?_, hc, by simp, hall⟩
        simpa [List.foldl_cons, hc] using he
      · refine Or.inr ⟨r, h :: l₁, l₂, by simp [hl], ?_, lt_trans hc hlt, ?_, h2⟩
        · simpa [List.foldl_cons, hc] using he
        · intro x hx
          rcases List.mem_cons.1 hx with rfl | hx
          · exact hlt
          · exact h1 x hx
    · rcases ih b with ⟨he, hall⟩ | ⟨r, l₁, l₂, hl, he, hlt, h1, h2⟩
      · refine Or.inl ⟨?_, ?_⟩
        · simpa [List.foldl_cons, hc] using he
        · intro x hx
          rcases List.mem_cons.1 hx with rfl | hx
          · exact le_of_not_lt hc
          · exact hall x hx
      · refine Or.inr ⟨r, h :: l₁, l₂, by simp [hl], ?_, hlt, ?_, h2⟩
        · simpa [List.foldl_cons, hc] using he
        · intro x hx
          rcases List.mem_cons.1 hx with rfl | hx
          · exact lt_of_le_of_lt (le_of_not_lt hc) hlt
          · exact h1 x hx

/-- Every rule in the flattened intent table names one of the five tools
and carries a base confidence between `0.8` and `0.95`. -/
theorem flatRules_facts :
    ∀ a ∈ flatRules, a.1 ∈ FIVE_TOOLS ∧ 4/5 ≤ a.2.2.2 ∧ a.2.2.2 ≤ 19/20 := by
  intro a ha
  simp only [flatRules, INTENT_PATTERNS, List.flatMap_cons, List.flatMap_nil,
    List.map_cons, List.map_nil, List.append_nil, List.cons_append,
    List.nil_append, List.mem_cons, List.not_mem_nil, or_false] at ha
  rcases ha with rfl | rfl | rfl | rfl | rfl | rfl | rfl | rfl | rfl | rfl |
    rfl | rfl | rfl | rfl | rfl <;>
    refine ⟨by simp [FIVE_TOOLS], by norm_num, by norm_num⟩

/-- Every scored (matching) rule names one of the five tools and scores in
the half-open interval `(1/2, 1]`. -/
theorem scoredRules_facts (text : Chars) :
    ∀ x ∈ scoredRules text, x.1 ∈ FIVE_TOOLS ∧ 1/2 < x.2 ∧ x.2 ≤ 1 := by
  intro x hx
  simp only [scoredRules, List.mem_filterMap] at hx
  obtain ⟨a, ha, hfa⟩ := hx
  obtain ⟨hmem, hlo, hhi⟩ := flatRules_facts a ha
  by_cases h : pySearchB a.2.2.1 text
  · simp only [h, if_true, Option.some.injEq] at hfa
    subst hfa
    refine ⟨hmem, ?_, ?_⟩
    · have : (0:ℚ) ≤ (if a.2.1.length > 20 then (1:ℚ)/20 else 0) := by
        split <;> norm_num
      simp only [ruleScore]
      linarith
    · have : (if a.2.1.length > 20 then (1:ℚ)/20 else 0) ≤ 1/20 := by
        split <;> norm_num
      simp only [ruleScore]
      linarith
  · simp [h] at hfa

/-! ## C3 — rule-based intent scoring (confirmed) -/

/-- C3: in the rule-based classifier, each rule whose pattern matches the
lower-cased input scores its base confidence plus `0.05` exactly when its
pattern text is longer than 20 characters (`scoredRules` lists these scored
matches in first-discovered-intent-then-first-rule order); the winning
`(intent, confidence)` is the first scored match that strictly exceeds all
earlier ones and is not exceeded by any other — i.e. the maximum, with ties
broken by that order; and when no rule matches the result is
`product.list` with confidence `0.5`. -/
theorem C3_intent_scoring :
    ∀ text : Chars,
      (scoredRules (pyLower text) = [] →
        (jointClassify text).intent = "product.list" ∧
        (jointClassify text).intent_confidence = 1/2) ∧
      (scoredRules (pyLower text) ≠ [] →
        ∃ l₁ l₂, scoredRules (pyLower text) =
          l₁ ++ ((jointClassify text).intent,
            (jointClassify text).intent_confidence) :: l₂ ∧
          (∀ x ∈ l₁, x.2 < (jointClassify text).intent_confidence) ∧
          (∀ x ∈ scoredRules (pyLower text),
            x.2 ≤ (jointClassify text).intent_confidence)) := by
  intro text
  have hj : ((jointClassify text).intent, (jointClassify text).intent_confidence) =
      classify_intent (pyLower text) := rfl
  have heq := classify_intent_eq_scored (pyLower text)
  rcases maxfold_spec (scoredRules (pyLower text)) ("product.list", 1/2) with
    ⟨he, hall⟩ | ⟨r, l₁, l₂, hl, he, hlt, h1, h2⟩
  · constructor
    · intro _
      have : classify_intent (pyLower text) = ("product.list", 1/2) :=
        heq.trans he
      rw [this] at hj
      exact ⟨congrArg Prod.fst hj, congrArg Prod.snd hj⟩
    · intro hne
      obtain ⟨x, hx⟩ := List.exists_mem_of_ne_nil _ hne
      have hgt := (scoredRules_facts (pyLower text) x hx).2.1
      have hle := hall x hx
      exact absurd (lt_of_lt_of_le hgt hle) (by norm_num)
  · constructor
    · intro h0
      rw [h0] at hl
      exact absurd hl (by simp)
    · intro _
      have hr : ((jointClassify text).intent,
          (jointClassify text).intent_confidence) = r := hj.trans (heq.trans he)
      have hr2 : (jointClassify text).intent_confidence = r.2 :=
        congrArg Prod.snd hr
      refine ⟨l₁, l₂, ?_, ?_, ?_⟩
      · rw [hr]; exact hl
      · intro x hx
        rw [hr2]
        exact h1 x hx
      · intro x hx
        rw [hr2]
        rw [hl] at hx
        rcases List.mem_append.1 hx with hx | hx
        · exact le_of_lt (h1 x hx)
        · rcases List.mem_cons.1 hx with rfl | hx
          · exact le_refl _
          · exact h2 x hx

/-- C3 witness: "zzz" matches no rule and resolves to the default; for
"delete product 42" the scored-match decomposition exists. -/
theorem C3_witness :
    ((jointClassify (str "zzz")).intent = "product.list" ∧
      (jointClassify (str "zzz")).intent_confidence = 1/2) ∧
    (∃ l₁ l₂, scoredRules (pyLower (str "delete product 42")) =
      l₁ ++ ((jointClassify (str "delete product 42")).intent,
        (jointClassify (str "delete product 42")).intent_confidence) :: l₂ ∧
      (∀ x ∈ l₁,
        x.2 < (jointClassify (str "delete product 42")).intent_confidence) ∧
      (∀ x ∈ scoredRules (pyLower (str "delete product 42")),
        x.2 ≤ (jointClassify (str "delete product 42")).intent_confidence)) :=
  ⟨(C3_intent_scoring (str "zzz")).1 (by with_unfolding_all rfl),
    (C3_intent_scoring (str "delete product 42")).2 (by
      rw [show scoredRules (pyLower (str "delete product 42")) =
        [("product.delete", 19/20), ("product.delete", 1)] from by
          with_unfolding_all rfl]
      simp)⟩

/-! ## Selection lemmas for the corpus classifier -/

theorem selectBest_eq (ps : List QueryPattern) (predicted : String)
    (message : Chars) :
    selectBest ps predicted message =
      ps.foldl (selectBestStep predicted message) ((0 : ℚ), none) := rfl

theorem calculate_similarity_nonneg (m p : Chars) :
    0 ≤ calculate_similarity m p := by
  unfold calculate_similarity
  dsimp only
  split_ifs <;> positivity

/-- The selection fold either keeps its seed (no pattern of the predicted
tool strictly beat the seed similarity) or returns the first pattern of the
predicted tool that strictly beats the seed and every earlier candidate,
with no later candidate beating it. -/
theorem selectBest_go (predicted : String) (message : Chars) :
    ∀ (l : List QueryPattern) (s : ℚ) (b : Option QueryPattern),
      (l.foldl (selectBestStep predicted message) (s, b) = (s, b) ∧
        ∀ q ∈ l, q.tool_name = predicted →
          calculate_similarity message q.query_pattern ≤ s) ∨
      (∃ bp l₁ l₂, l = l₁ ++ bp :: l₂ ∧
        l.foldl (selectBestStep predicted message) (s, b) =
          (calculate_similarity message bp.query_pattern, some bp) ∧
        bp.tool_name = predicted ∧
        s < calculate_similarity message bp.query_pattern ∧
        (∀ q ∈ l₁, q.tool_name = predicted →
          calculate_similarity message q.query_pattern <
            calculate_similarity message bp.query_pattern) ∧
        (∀ q ∈ l₂, q.tool_name = predicted →
          calculate_similarity message q.query_pattern ≤
            calculate_similarity message bp.query_pattern)) := by
  intro l
  induction l with
  | nil => intro s b; exact Or.inl ⟨rfl, by simp⟩
  | cons p t ih =>
    intro s b
    by_cases h1 : p.tool_name = predicted
    · by_cases h2 : s < calculate_similarity message p.query_pattern
      · have hstep : selectBestStep predicted message (s, b) p =
            (calculate_similarity message p.query_pattern, some p) := by
          simp [selectBestStep, h1, h2]
        rcases ih (calculate_similarity message p.query_pattern) (some p) with
          ⟨he, hall⟩ | ⟨bp, l₁, l₂, hl, he, htool, hlt, hb1, hb2⟩
        · refine Or.inr ⟨p, [], t, by simp, ?_, h1, h2, by simp, hall⟩
          rw [List.foldl_cons, hstep]
          exact he
        · refine Or.inr ⟨bp, p :: l₁, l₂, by simp [hl], ?_, htool,
            lt_trans h2 hlt, ?_, hb2⟩
          · rw [List.foldl_cons, hstep]
            exact he
          · intro q hq hqt
            rcases List.mem_cons.1 hq with rfl | hq
            · exact hlt
            · exact hb1 q hq hqt
      · have hstep : selectBestStep predicted message (s, b) p = (s, b) := by
          simp [selectBestStep, h1, h2]
        rcases ih s b with ⟨he, hall⟩ | ⟨bp, l₁, l₂, hl, he, htool, hlt, hb1, hb2⟩
        · refine Or.inl ⟨?_, ?_⟩
          · rw [List.foldl_cons, hstep]; exact he
          · intro q hq hqt
            rcases List.mem_cons.1 hq with rfl | hq
            · exact le_of_not_lt h2
            · exact hall q hq hqt
        · refine Or.inr ⟨bp, p :: l₁, l₂, by simp [hl], ?_, htool, hlt, ?_, hb2⟩
          · rw [List.foldl_cons, hstep]; exact he
          · intro q hq hqt
            rcases List.mem_cons.1 hq with rfl | hq
            · exact lt_of_le_of_lt (le_of_not_lt h2) hlt
            · exact hb1 q hq hqt
    · have hstep : selectBestStep predicted message (s, b) p = (s, b) := by
        simp [selectBestStep, h1]
      rcases ih s b with ⟨he, hall⟩ | ⟨bp, l₁, l₂, hl, he, htool, hlt, hb1, hb2⟩
      · refine Or.inl ⟨?_, ?_⟩
        · rw [List.foldl_cons, hstep]; exact he
        · intro q hq hqt
          rcases List.mem_cons.1 hq with rfl | hq
          · exact absurd hqt h1
          · exact hall q hq hqt
      · refine Or.inr ⟨bp, p :: l₁, l₂, by simp [hl], ?_, htool, hlt, ?_, hb2⟩
        · rw [List.foldl_cons, hstep]; exact he
        · intro q hq hqt
          rcases List.mem_cons.1 hq with rfl | hq
          · exact absurd hqt h1
          · exact hb1 q hq hqt

/-! ## C2 — corpus best-pattern selection (corrected) -/

/-- C2 counterexample: the corpus holds one pattern ("hello") for the
predicted tool `product.get`, but for the message "xyz" its word-set
similarity is `0`, so the selection loop (which starts at best similarity
`0` and requires a strict improvement) selects nothing and the classifier
returns the default result — contradicting the claim that the default is
returned only when no pattern matches the predicted tool at all. -/
theorem C2_counterexample :
    (MLState.classify (fitConst "product.get") litEvalNone
      (MLState.init [patHello]) (str "xyz")).1 = default_result ∧
    (fitConst "product.get" [patHello]).predict (str "xyz") = "product.get" ∧
    patHello.tool_name = "product.get" ∧
    calculate_similarity (str "xyz") patHello.query_pattern = 0 := by
  refine ⟨by with_unfolding_all rfl, rfl, rfl, by with_unfolding_all rfl⟩

/-- C2 (amended): among the corpus patterns whose tool equals the
prediction, the one maximizing word-set Jaccard similarity is selected —
first occurrence in corpus order on ties — **provided** its similarity is
strictly positive; the default result is returned when every pattern of the
predicted tool has similarity `0` (in particular when none matches the
predicted tool); on success the final confidence is the maximal predicted
class probability times the selected pattern's base confidence, the method
tag is "ml_classifier", and the arguments come from the selected pattern's
template. -/
theorem C2_best_pattern_selection :
    ∀ (fit : List QueryPattern → Pipeline) (litEval : String → Option ArgsMap)
      (ps : List QueryPattern) (message : Chars), ps ≠ [] →
      ((selectBest ps ((fit ps).predict message) message).2 = none →
        (MLState.classify fit litEval (MLState.init ps) message).1 =
            default_result ∧
        ∀ q ∈ ps, q.tool_name = (fit ps).predict message →
          calculate_similarity message q.query_pattern = 0) ∧
      (∀ bp, (selectBest ps ((fit ps).predict message) message).2 = some bp →
        (MLState.classify fit litEval (MLState.init ps) message).1.tool_name =
            bp.tool_name ∧
        (MLState.classify fit litEval (MLState.init ps) message).1.method =
            "ml_classifier" ∧
        (MLState.classify fit litEval (MLState.init ps) message).1.confidence =
            pymax ((fit ps).predictProba message) * bp.confidence ∧
        (MLState.classify fit litEval (MLState.init ps) message).1.tool_args =
            (litEval bp.tool_args).getD [] ∧
        bp.tool_name = (fit ps).predict message ∧
        0 < calculate_similarity message bp.query_pattern ∧
        (∀ q ∈ ps, q.tool_name = (fit ps).predict message →
          calculate_similarity message q.query_pattern ≤
            calculate_similarity message bp.query_pattern) ∧
        ∃ l₁ l₂, ps = l₁ ++ bp :: l₂ ∧
          ∀ q ∈ l₁, q.tool_name = (fit ps).predict message →
            calculate_similarity message q.query_pattern <
              calculate_similarity message bp.query_pattern) := by
  intro fit litEval ps message hps
  have hclass : MLState.classify fit litEval (MLState.init ps) message =
      match (selectBest ps ((fit ps).predict message) message).2 with
      | some bp =>
        (⟨bp.tool_name, (litEval bp.tool_args).getD [],
          pymax ((fit ps).predictProba message) * bp.confidence, "ml_classifier",
          bp.query_type, bp.entity, bp.intent, bp.description⟩,
          ⟨ps, some (fit ps), true⟩)
      | none => (default_result, ⟨ps, some (fit ps), true⟩) := by
    simp [MLState.classify, MLState.init, MLState.train, hps]
  rcases selectBest_go ((fit ps).predict message) message ps 0 none with
    ⟨he, hall⟩ | ⟨bp, l₁, l₂, hl, he, htool, hlt, hb1, hb2⟩
  · have hsel : (selectBest ps ((fit ps).predict message) message).2 = none := by
      rw [selectBest_eq, he]
    constructor
    · intro _
      refine ⟨?_, ?_⟩
      · rw [hclass, hsel]
      · intro q hq hqt
        exact le_antisymm (hall q hq hqt) (calculate_similarity_nonneg _ _)
    · intro bp hbp
      rw [hsel] at hbp
      exact absurd hbp (by simp)
  · have hsel : (selectBest ps ((fit ps).predict message) message).2 = some bp := by
      rw [selectBest_eq, he]
    constructor
    · intro h0
      rw [hsel] at h0
      exact absurd h0 (by simp)
    · intro bp' hbp'
      rw [hsel] at hbp'
      have hbp : bp' = bp := by simpa using hbp'.symm
      subst hbp
      have hr : (MLState.classify fit litEval (MLState.init ps) message).1 =
          ⟨bp'.tool_name, (litEval bp'.tool_args).getD [],
            pymax ((fit ps).predictProba message) * bp'.confidence,
            "ml_classifier", bp'.query_type, bp'.entity, bp'.intent,
            bp'.description⟩ := by
        rw [hclass, hsel]
      refine ⟨by rw [hr], by rw [hr], by rw [hr], by rw [hr], htool, ?_, ?_, ?_⟩
      · exact lt_of_le_of_lt (le_refl 0) hlt
      · intro q hq hqt
        rw [hl] at hq
        rcases List.mem_append.1 hq with hq | hq
        · exact le_of_lt (hb1 q hq hqt)
        · rcases List.mem_cons.1 hq with rfl | hq
          · exact le_refl _
          · exact hb2 q hq hqt
      · exact ⟨l₁, l₂, hl, hb1⟩

/-- C2 witness: the amended selection applied at a concrete corpus — the
message "hello world" has positive similarity with the single `product.get`
pattern "hello", which is therefore selected. -/
theorem C2_witness :
    (MLState.classify (fitConst "product.get") litEvalNone
        (MLState.init [patHello]) (str "hello world")).1.tool_name =
      patHello.tool_name ∧
    (MLState.classify (fitConst "product.get") litEvalNone
        (MLState.init [patHello]) (str "hello world")).1.method =
      "ml_classifier" :=
  have h := (C2_best_pattern_selection (fitConst "product.get") litEvalNone
    [patHello] (str "hello world") (by simp)).2 patHello
    (by with_unfolding_all rfl)
  ⟨h.1, h.2.1⟩

/-! ## C1 — confidence bounds and the closed tool-identifier set -/

theorem foldl_max_bounds :
    ∀ (t : List ℚ) (h0 : ℚ), 0 ≤ h0 → h0 ≤ 1 → (∀ q ∈ t, 0 ≤ q ∧ q ≤ 1) →
      0 ≤ t.foldl max h0 ∧ t.foldl max h0 ≤ 1 := by
  intro t
  induction t with
  | nil => intro h0 hl hr _; exact ⟨hl, hr⟩
  | cons x t ih =>
    intro h0 hl hr hall
    have hx := hall x (List.mem_cons_self _ _)
    rw [List.foldl_cons]
    exact ih (max h0 x) (le_trans hl (le_max_left _ _)) (max_le hr hx.2)
      fun q hq => hall q (List.mem_cons_of_mem _ hq)

theorem pymax_bounds (l : List ℚ) (h : ∀ q ∈ l, 0 ≤ q ∧ q ≤ 1) :
    0 ≤ pymax l ∧ pymax l ≤ 1 := by
  cases l with
  | nil => exact ⟨le_refl _, by norm_num [pymax]⟩
  | cons h0 t =>
    have hh := h h0 (List.mem_cons_self _ _)
    exact foldl_max_bounds t h0 hh.1 hh.2
      fun q hq => h q (List.mem_cons_of_mem _ hq)

theorem enhance_preserves (m : Chars) (r : ClassificationResult) :
    (enhance_with_dynamic_extraction m r).tool_name = r.tool_name ∧
    (enhance_with_dynamic_extraction m r).confidence = r.confidence :=
  ⟨rfl, rfl⟩

/-- C1: both public classification entrypoints return a confidence in
`[0,1]` and a tool identifier from the closed five-element set, and
unrecognized text (no rule matches) resolves to the list identifier on the
rule-based path.  For the corpus-trained path this holds under the
spec-modelled corpus well-formedness (the CSV data is not among the
sources; the spec fixes base confidences to `[0,1]` and tool ids to the
five identifiers) and the scikit-learn pipeline contract. -/
theorem C1_bounds_and_closed_set :
    (∀ text : Chars,
      (classify_with_rules text).tool_name ∈ FIVE_TOOLS ∧
      0 ≤ (classify_with_rules text).confidence ∧
      (classify_with_rules text).confidence ≤ 1 ∧
      (scoredRules (pyLower text) = [] →
        (classify_with_rules text).tool_name = "product.list")) ∧
    (∀ (fit : List QueryPattern → Pipeline) (litEval : String → Option ArgsMap)
      (ps : List QueryPattern) (message : Chars),
      corpusWellFormed ps →
      (ps ≠ [] → PipelineSound (fit ps) ps) →
      (classify_with_corpus_model fit litEval (MLState.init ps)
        message).tool_name ∈ FIVE_TOOLS ∧
      0 ≤ (classify_with_corpus_model fit litEval (MLState.init ps)
        message).confidence ∧
      (classify_with_corpus_model fit litEval (MLState.init ps)
        message).confidence ≤ 1) := by
  constructor
  · intro text
    have hpair : ((classify_with_rules text).tool_name,
        (classify_with_rules text).confidence) =
        classify_intent (pyLower text) := rfl
    have heq := classify_intent_eq_scored (pyLower text)
    have hmain : (classify_with_rules text).tool_name ∈ FIVE_TOOLS ∧
        0 ≤ (classify_with_rules text).confidence ∧
        (classify_with_rules text).confidence ≤ 1 := by
      rcases maxfold_spec (scoredRules (pyLower text)) ("product.list", 1/2) with
        ⟨he, _⟩ | ⟨r, l₁, l₂, _, he, _, _, _⟩
      · have : ((classify_with_rules text).tool_name,
            (classify_with_rules text).confidence) = ("product.list", 1/2) :=
          hpair.trans (heq.trans he)
        have ht := congrArg Prod.fst this
        have hc := congrArg Prod.snd this
        simp only at ht hc
        rw [ht, hc]
        refine ⟨by simp [FIVE_TOOLS], by norm_num, by norm_num⟩
      · have hmem : r ∈ scoredRules (pyLower text) := by
          rw [‹scoredRules (pyLower text) = l₁ ++ r :: l₂›]
          simp
        obtain ⟨hf, hlo, hhi⟩ := scoredRules_facts (pyLower text) r hmem
        have : ((classify_with_rules text).tool_name,
            (classify_with_rules text).confidence) = r :=
          hpair.trans (heq.trans he)
        have ht := congrArg Prod.fst this
        have hc := congrArg Prod.snd this
        simp only at ht hc
        rw [ht, hc]
        exact ⟨hf, by linarith, hhi⟩
    refine ⟨hmain.1, hmain.2.1, hmain.2.2, ?_⟩
    intro h0
    have : classify_intent (pyLower text) = ("product.list", 1/2) := by
      rw [heq, h0]
      rfl
    rw [this] at hpair
    exact congrArg Prod.fst hpair
  · intro fit litEval ps message hcw hpl
    by_cases hps : ps = []
    · subst hps
      have : classify_with_corpus_model fit litEval (MLState.init []) message =
          enhance_with_dynamic_extraction message default_result := rfl
      rw [this]
      rw [(enhance_preserves message default_result).1,
        (enhance_preserves message default_result).2]
      refine ⟨by simp [default_result, FIVE_TOOLS], by norm_num [default_result],
        by norm_num [default_result]⟩
    · obtain ⟨hpred, hproba⟩ := hpl hps
      have hclass : MLState.classify fit litEval (MLState.init ps) message =
          match (selectBest ps ((fit ps).predict message) message).2 with
          | some bp =>
            (⟨bp.tool_name, (litEval bp.tool_args).getD [],
              pymax ((fit ps).predictProba message) * bp.confidence,
              "ml_classifier", bp.query_type, bp.entity, bp.intent,
              bp.description⟩, ⟨ps, some (fit ps), true⟩)
          | none => (default_result, ⟨ps, some (fit ps), true⟩) := by
        simp [MLState.classify, MLState.init, MLState.train, hps]
      have hcc : classify_with_corpus_model fit litEval (MLState.init ps) message =
          enhance_with_dynamic_extraction message
            (MLState.classify fit litEval (MLState.init ps) message).1 := rfl
      rcases hsel : (selectBest ps ((fit ps).predict message) message).2 with
        _ | bp
      · have hr : (MLState.classify fit litEval (MLState.init ps) message).1 =
            default_result := by rw [hclass, hsel]
        rw [hcc, hr]
        rw [(enhance_preserves message default_result).1,
          (enhance_preserves message default_result).2]
        refine ⟨by simp [default_result, FIVE_TOOLS], by norm_num [default_result],
          by norm_num [default_result]⟩
      · have hr : (MLState.classify fit litEval (MLState.init ps) message).1 =
            ⟨bp.tool_name, (litEval bp.tool_args).getD [],
              pymax ((fit ps).predictProba message) * bp.confidence,
              "ml_classifier", bp.query_type, bp.entity, bp.intent,
              bp.description⟩ := by rw [hclass, hsel]
        have hbpmem : bp ∈ ps := by
          rcases selectBest_go ((fit ps).predict message) message ps 0 none with
            ⟨he, _⟩ | ⟨bp0, l₁, l₂, hl, he, _, _, _, _⟩
          · rw [selectBest_eq, he] at hsel
            exact absurd hsel (by simp)
          · rw [selectBest_eq, he] at hsel
            have : bp0 = bp := by simpa using hsel
            subst this
            rw [hl]
            simp
        obtain ⟨hfive, hclo, hchi⟩ := hcw bp hbpmem
        have hpm := pymax_bounds ((fit ps).predictProba message)
          (fun q hq => hproba message q hq)
        rw [hcc, hr]
        rw [(enhance_preserves message _).1, (enhance_preserves message _).2]
        refine ⟨hfive, mul_nonneg hpm.1 hclo, ?_⟩
        calc pymax ((fit ps).predictProba message) * bp.confidence ≤ 1 * 1 := by
              apply mul_le_mul hpm.2 hchi hclo
              norm_num
          _ = 1 := by norm_num

/-- C1 witness: the rule path at the unrecognized input "zzz" resolves to
the list identifier; the corpus path at a concrete well-formed one-pattern
corpus stays within bounds. -/
theorem C1_witness :
    (classify_with_rules (str "zzz")).tool_name = "product.list" ∧
    ((classify_with_corpus_model (fitConst "product.list") litEvalNone
        (MLState.init [patListProducts]) (str "list products")).tool_name ∈
      FIVE_TOOLS ∧
      0 ≤ (classify_with_corpus_model (fitConst "product.list") litEvalNone
        (MLState.init [patListProducts]) (str "list products")).confidence ∧
      (classify_with_corpus_model (fitConst "product.list") litEvalNone
        (MLState.init [patListProducts]) (str "list products")).confidence ≤ 1) :=
  ⟨(C1_bounds_and_closed_set.1 (str "zzz")).2.2.2 (by with_unfolding_all rfl),
    C1_bounds_and_closed_set.2 (fitConst "product.list") litEvalNone
      [patListProducts] (str "list products")
      (by
        intro p hp
        simp only [List.mem_singleton] at hp
        subst hp
        refine ⟨by simp [patListProducts, FIVE_TOOLS], by norm_num [patListProducts],
          by norm_num [patListProducts]⟩)
      (by
        intro _
        refine ⟨fun m => by simp [fitConst, patListProducts], fun m q hq => ?_⟩
        simp only [fitConst, List.mem_singleton] at hq
        subst hq
        norm_num)⟩

end ProductMcp
